import Mathlib

/-!
Shallow embedding of `cmd/build/main.go` of the cronet-go build orchestrator.

The Go program is a single-file build tool.  The repository carries two
snapshots of it; the second, more complete snapshot (the one with the
`runGetClang` toolchain bootstrap) is the intended design, and all
definitions below are translated from that snapshot unless a name carries
a `V1` suffix, in which case it comes from the first snapshot.

Effectful operations (process invocation, filesystem access, HTTP) are
embedded as pure functions that either take the relevant environment
(host platform, file-existence predicates, response bodies) as explicit
arguments or return a list of emitted effects in order.
-/

namespace CronetBuild

/-- `Target` mirrors the Go struct `Target`: gn `target_os` / `target_cpu`
plus the Go `GOOS` / `GOARCH` names used for output paths. -/
structure Target where
  OS   : String
  CPU  : String
  GOOS : String
  ARCH : String
deriving DecidableEq, Repr

/-- The static target registry `allTargets`, in declaration order. -/
def allTargets : List Target :=
  [ { OS := "linux", CPU := "x64", GOOS := "linux", ARCH := "amd64" },
    { OS := "linux", CPU := "arm64", GOOS := "linux", ARCH := "arm64" },
    { OS := "mac", CPU := "x64", GOOS := "darwin", ARCH := "amd64" },
    { OS := "mac", CPU := "arm64", GOOS := "darwin", ARCH := "arm64" },
    { OS := "win", CPU := "x64", GOOS := "windows", ARCH := "amd64" },
    { OS := "win", CPU := "arm64", GOOS := "windows", ARCH := "arm64" },
    { OS := "ios", CPU := "arm64", GOOS := "ios", ARCH := "arm64" },
    { OS := "android", CPU := "arm64", GOOS := "android", ARCH := "arm64" },
    { OS := "android", CPU := "x64", GOOS := "android", ARCH := "amd64" },
    { OS := "android", CPU := "arm", GOOS := "android", ARCH := "arm" },
    { OS := "android", CPU := "x86", GOOS := "android", ARCH := "386" } ]

/-- The host platform identity of the running process
(`runtime.GOOS` / `runtime.GOARCH`), passed explicitly. -/
structure Host where
  goos : String
  goarch : String
deriving DecidableEq, Repr

/-- Go `unicode.IsSpace` restricted to the Latin-1 range, which is all
`strings.TrimSpace` ever meets on the ASCII selector tokens this tool
handles. -/
def isGoSpace (c : Char) : Bool :=
  c = ' ' || c = '\t' || c = '\n' || c = '\r' ||
  c = Char.ofNat 11 || c = Char.ofNat 12 ||
  c = Char.ofNat 0x85 || c = Char.ofNat 0xA0

/-- Go `strings.Split` with a one-character separator, on character lists:
splits around every occurrence of `sep`, keeping empty fields. -/
def splitCharList (sep : Char) : List Char → List (List Char)
  | [] => [[]]
  | c :: cs =>
    if c = sep then
      [] :: splitCharList sep cs
    else
      match splitCharList sep cs with
      | [] => [[c]]
      | g :: gs => (c :: g) :: gs

/-- Go `strings.Split(s, sep)` for a one-character separator. -/
def goSplit (s : String) (sep : Char) : List String :=
  (splitCharList sep s.data).map String.mk

/-- Go `strings.TrimSpace`. -/
def goTrimSpace (s : String) : String :=
  String.mk (((s.data.dropWhile isGoSpace).reverse.dropWhile isGoSpace).reverse)

/-- The body of the explicit-token loop of `parseTargets` for one
comma-separated part: trim it, split on `/`, require exactly two fields,
and look the pair up in the registry (first match wins). -/
def parsePart (part0 : String) : Except String Target :=
  let part := goTrimSpace part0
  match goSplit part '/' with
  | [goos, goarch] =>
    match allTargets.find? (fun t => t.GOOS == goos && t.ARCH == goarch) with
    | some t => Except.ok t
    | none => Except.error ("unsupported target: " ++ goos ++ "/" ++ goarch)
  | _ => Except.error ("invalid target format: " ++ part ++ " (expected os/arch)")

/-- The explicit-token loop of `parseTargets`: parts are processed left to
right and the first failure aborts the run (`fatal` exits the process, so
no partial list escapes). -/
def parsePartsLoop : List String → Except String (List Target)
  | [] => Except.ok []
  | p :: ps =>
    match parsePart p with
    | Except.ok t => (parsePartsLoop ps).map (fun ts => t :: ts)
    | Except.error e => Except.error e

/-- Go `parseTargets`: empty selector resolves the host platform, `all`
returns the whole registry, anything else is a comma-separated list of
`os/arch` tokens. -/
def parseTargets (host : Host) (s : String) : Except String (List Target) :=
  if s = "" then
    match allTargets.find? (fun t => t.GOOS == host.goos && t.ARCH == host.goarch) with
    | some t => Except.ok [t]
    | none =>
      Except.error ("unsupported host platform: " ++ host.goos ++ "/" ++ host.goarch)
  else if s = "all" then
    Except.ok allTargets
  else
    parsePartsLoop (goSplit s ',')

/-- An abstract filesystem: each path optionally holds a byte list. -/
def FS : Type := String → Option (List Nat)

/-- Go `downloadFile(url, dest, expectedSha256)`.  The HTTP layer and the
SHA-256 function are external to the repository, so the response status,
the response body and the digest function `h` are explicit arguments.
Mirrors the source order: non-200 status fails before the file is
created; otherwise the body is streamed to `dest` while being hashed;
on digest mismatch the file is removed and an error returned. -/
def downloadFile (h : List Nat → String) (status : Nat) (body : List Nat)
    (fs : FS) (dest expectedSha256 : String) : Except String Unit × FS :=
  if status ≠ 200 then
    (Except.error ("HTTP " ++ toString status), fs)
  else
    let fs1 : FS := fun p => if p = dest then some body else fs p
    let actual := h body
    if actual = expectedSha256 then
      (Except.ok (), fs1)
    else
      (Except.error ("sha256 mismatch: expected " ++ expectedSha256 ++ ", got " ++ actual),
       fun p => if p = dest then none else fs1 p)

/-- The CPU-to-sysroot-architecture map literal of the second snapshot's
`buildTarget` (`map[string]string{"x64": "amd64", "arm64": "arm64"}`);
indexing a Go map at a missing key yields the zero value `""`. -/
def sysrootArchV2 (cpu : String) : String :=
  if cpu = "x64" then "amd64" else if cpu = "arm64" then "arm64" else ""

/-- The baseline gn argument list of `buildTarget` (second snapshot),
assembled before the platform `switch`. -/
def baselineArgs (t : Target) : List String :=
  [ "is_official_build=true",
    "is_debug=false",
    "is_clang=true",
    "fatal_linker_warnings=false",
    "treat_warnings_as_errors=false",
    "is_cronet_build=true",
    "use_udev=false",
    "use_aura=false",
    "use_ozone=false",
    "use_gio=false",
    "use_platform_icu_alternatives=true",
    "use_glib=false",
    "disable_file_support=true",
    "enable_websockets=false",
    "use_kerberos=false",
    "disable_zstd_filter=false",
    "enable_mdns=false",
    "enable_reporting=false",
    "include_transport_security_state_preload_list=false",
    "enable_device_bound_sessions=false",
    "enable_bracketed_proxy_uris=true",
    "enable_quic_proxy_support=true",
    "enable_disk_cache_sql_backend=false",
    "use_nss_certs=false",
    "enable_backup_ref_ptr_support=false",
    "enable_dangling_raw_ptr_checks=false",
    "exclude_unwind_tables=true",
    "enable_resource_allowlist_generation=false",
    "symbol_level=0",
    "enable_dsyms=false",
    "target_os=\"" ++ t.OS ++ "\"",
    "target_cpu=\"" ++ t.CPU ++ "\"" ]

/-- The platform `switch` of `buildTarget` (second snapshot): each OS case
only appends further arguments to the baseline. -/
def osSpecificArgs (t : Target) : List String :=
  if t.OS = "mac" then
    ["use_sysroot=false"]
  else if t.OS = "linux" then
    [ "use_sysroot=true",
      "target_sysroot=\"//out/sysroot-build/bullseye/bullseye_" ++
        sysrootArchV2 t.CPU ++ "_staging\"" ] ++
    (if t.CPU = "x64" then ["use_cfi_icall=false"] else [])
  else if t.OS = "win" then
    ["use_sysroot=false"]
  else if t.OS = "android" then
    [ "use_sysroot=false",
      "default_min_sdk_version=24",
      "is_high_end_android=true",
      "android_ndk_major_version=28" ]
  else if t.OS = "ios" then
    [ "use_sysroot=false",
      "ios_enable_code_signing=false",
      "enable_ios_bitcode=false",
      "target_environment=\"device\"" ]
  else
    []

/-- The full gn argument list `buildTarget` (second snapshot) passes to
`gn gen`: the baseline followed by the platform-specific appends. -/
def buildTargetArgs (t : Target) : List String :=
  baselineArgs t ++ osSpecificArgs t

/-- The CPU-to-sysroot-architecture map literal of the first snapshot's
`ensureLinuxSysroot`. -/
def sysrootArchV1 (cpu : String) : String :=
  if cpu = "x64" then "amd64" else if cpu = "arm64" then "arm64"
  else if cpu = "x86" then "i386" else if cpu = "arm" then "armhf" else ""

/-- The gn argument list of the first snapshot's `buildTarget`.  Its
baseline lists `enable_dsyms=false` after the two target entries, and its
linux case points `target_sysroot` at the directory `ensureLinuxSysroot`
returns (`build/linux/debian_bullseye_<arch>-sysroot`, relative to the
source root). -/
def buildTargetArgsV1 (t : Target) : List String :=
  [ "is_official_build=true",
    "is_debug=false",
    "is_clang=true",
    "fatal_linker_warnings=false",
    "treat_warnings_as_errors=false",
    "is_cronet_build=true",
    "use_udev=false",
    "use_aura=false",
    "use_ozone=false",
    "use_gio=false",
    "use_platform_icu_alternatives=true",
    "use_glib=false",
    "disable_file_support=true",
    "enable_websockets=false",
    "use_kerberos=false",
    "disable_zstd_filter=false",
    "enable_mdns=false",
    "enable_reporting=false",
    "include_transport_security_state_preload_list=false",
    "enable_device_bound_sessions=false",
    "enable_bracketed_proxy_uris=true",
    "enable_quic_proxy_support=true",
    "enable_disk_cache_sql_backend=false",
    "use_nss_certs=false",
    "enable_backup_ref_ptr_support=false",
    "enable_dangling_raw_ptr_checks=false",
    "exclude_unwind_tables=true",
    "enable_resource_allowlist_generation=false",
    "symbol_level=0",
    "target_os=\"" ++ t.OS ++ "\"",
    "target_cpu=\"" ++ t.CPU ++ "\"",
    "enable_dsyms=false" ] ++
  (if t.OS = "mac" then
    ["use_sysroot=false"]
  else if t.OS = "linux" then
    [ "use_sysroot=true",
      "target_sysroot=\"//build/linux/debian_bullseye_" ++
        sysrootArchV1 t.CPU ++ "-sysroot\"" ] ++
    (if t.CPU = "x64" then ["use_cfi_icall=false"] else [])
  else if t.OS = "win" then
    ["use_sysroot=false"]
  else if t.OS = "android" then
    [ "use_sysroot=false",
      "default_min_sdk_version=24",
      "is_high_end_android=true",
      "android_ndk_major_version=28" ]
  else if t.OS = "ios" then
    [ "use_sysroot=false",
      "ios_enable_code_signing=false",
      "enable_ios_bitcode=false",
      "target_environment=\"device\"" ]
  else
    [])

/-- Go `hostToCPU`: converts a Go `GOARCH` name to a gn cpu name. -/
def hostToCPU (goarch : String) : String :=
  if goarch = "amd64" then "x64"
  else if goarch = "arm64" then "arm64"
  else if goarch = "386" then "x86"
  else if goarch = "arm" then "arm"
  else goarch

/-- Go `getExtraFlags`: the `EXTRA_FLAGS` value for a target. -/
def getExtraFlags (t : Target) : String :=
  "target_os=\"" ++ t.OS ++ "\" target_cpu=\"" ++ t.CPU ++ "\""

/-- The `EXTRA_FLAGS` value `runGetClang` builds for the host-side
invocation (`hostFlags` in the source). -/
def hostSysrootFlags (hostCPU : String) : String :=
  "target_os=\"linux\" target_cpu=\"" ++ hostCPU ++ "\""

/-- The externally visible actions of `runGetClang`, in order. -/
inductive ClangEffect where
  | runScript (extraFlags : String)
  | symlink (src dst : String)
deriving DecidableEq, Repr

/-- Go `runGetClang`, as its ordered effect trace.  `srcRoot` is the
resolved source root, `hostGOOS`/`hostGOARCH` are `runtime.GOOS` /
`runtime.GOARCH`, and `hostSysrootDstExists` tells whether
`build/linux/debian_bullseye_amd64-sysroot` already exists (the
`os.Stat` guard around the symlink). -/
def runGetClang (srcRoot hostGOOS hostGOARCH : String)
    (hostSysrootDstExists : Bool) (t : Target) : List ClangEffect :=
  let hostCPU := hostToCPU hostGOARCH
  (if hostGOOS = "linux" ∧ (t.OS = "linux" ∨ t.OS = "android") ∧ t.CPU ≠ hostCPU then
    ClangEffect.runScript (hostSysrootFlags hostCPU) ::
      (if hostSysrootDstExists then []
       else
         [ClangEffect.symlink
           (srcRoot ++ "/out/sysroot-build/bullseye/bullseye_amd64_staging")
           (srcRoot ++ "/build/linux/debian_bullseye_amd64-sysroot")])
  else []) ++
  [ClangEffect.runScript (getExtraFlags t)]

/-- Specification-side definition, following the spec's words: the
staging directory the toolchain-fetch script produces for a given gn
cpu, using the staging-path convention visible in `buildTarget`
(`out/sysroot-build/bullseye/bullseye_<arch>_staging`). -/
def hostStagingDirSpec (srcRoot cpu : String) : String :=
  srcRoot ++ "/out/sysroot-build/bullseye/bullseye_" ++ sysrootArchV1 cpu ++ "_staging"

/-- Specification-side definition, following the spec's words: the
conventional sysroot location the generator expects for a given gn cpu,
using the convention visible in `ensureLinuxSysroot`
(`build/linux/debian_bullseye_<arch>-sysroot`). -/
def conventionalSysrootSpec (srcRoot cpu : String) : String :=
  srcRoot ++ "/build/linux/debian_bullseye_" ++ sysrootArchV1 cpu ++ "-sysroot"

/-- The per-target library directory name used by `cmdPackage`
(`fmt.Sprintf("%s_%s", t.GOOS, t.ARCH)` under `lib/`). -/
def libDirName (t : Target) : String :=
  t.GOOS ++ "_" ++ t.ARCH

/-- The per-target CGO config filename used by `generateCGOConfigs`
(`fmt.Sprintf("cgo_%s_%s.go", t.GOOS, t.ARCH)`). -/
def cgoFileName (t : Target) : String :=
  "cgo_" ++ t.GOOS ++ "_" ++ t.ARCH ++ ".go"

/-- The externally visible actions of `cmdPackage`, in order. -/
inductive PkgEffect where
  | removeDir (p : String)
  | makeDir (p : String)
  | copyHeader (src dest : String)
  | warnMissing (goos arch : String)
  | copyLib (goos arch : String)
  | writeCGO (filename : String)
deriving DecidableEq, Repr

/-- The per-target library-copy loop of `cmdPackage`: make the target
directory, then either copy the built library or warn and skip,
depending on whether the expected `libcronet_static.a` exists
(`present`). -/
def packageLibEffects (present : Target → Bool) : List Target → List PkgEffect
  | [] => []
  | t :: ts =>
    (PkgEffect.makeDir ("lib/" ++ libDirName t) ::
      (if present t then [PkgEffect.copyLib t.GOOS t.ARCH]
       else [PkgEffect.warnMissing t.GOOS t.ARCH])) ++
    packageLibEffects present ts

/-- Go `generateCGOConfigs`: one CGO config file written per target, in
list order, unconditionally. -/
def generateCGOConfigs (targets : List Target) : List PkgEffect :=
  targets.map (fun t => PkgEffect.writeCGO (cgoFileName t))

/-- Go `cmdPackage`, as its ordered effect trace: reset the output
directories, copy the four shared headers, run the per-target library
loop, then emit the CGO configs. -/
def cmdPackage (present : Target → Bool) (targets : List Target) : List PkgEffect :=
  [ PkgEffect.removeDir "lib",
    PkgEffect.removeDir "include",
    PkgEffect.makeDir "include",
    PkgEffect.copyHeader "components/cronet/native/include/cronet_c.h" "include/cronet_c.h",
    PkgEffect.copyHeader "components/cronet/native/include/cronet_export.h" "include/cronet_export.h",
    PkgEffect.copyHeader "components/cronet/native/generated/cronet.idl_c.h" "include/cronet.idl_c.h",
    PkgEffect.copyHeader "components/grpc_support/include/bidirectional_stream_c.h" "include/bidirectional_stream_c.h" ] ++
  packageLibEffects present targets ++
  generateCGOConfigs targets

/-- The warnings recorded in a package effect trace, in order. -/
def warnsOf (es : List PkgEffect) : List (String × String) :=
  es.filterMap fun e =>
    match e with
    | PkgEffect.warnMissing g a => some (g, a)
    | _ => none

/-- The library copies recorded in a package effect trace, in order. -/
def copiesOf (es : List PkgEffect) : List (String × String) :=
  es.filterMap fun e =>
    match e with
    | PkgEffect.copyLib g a => some (g, a)
    | _ => none

/-- The CGO config files written in a package effect trace, in order. -/
def cgosOf (es : List PkgEffect) : List String :=
  es.filterMap fun e =>
    match e with
    | PkgEffect.writeCGO f => some f
    | _ => none

/-- The `os/arch` selector token that denotes a target. -/
def targetToken (t : Target) : String :=
  t.GOOS ++ "/" ++ t.ARCH

/-- Comma-separated rendering of a token list, the shape of an explicit
selector string. -/
def joinComma : List String → String
  | [] => ""
  | [x] => x
  | x :: y :: ys => x ++ "," ++ joinComma (y :: ys)

theorem mk_data (s : String) : String.mk s.data = s := rfl

theorem data_append (a b : String) : (a ++ b).data = a.data ++ b.data := rfl

theorem splitCharList_of_not_mem (sep : Char) (a : List Char) (ha : sep ∉ a) :
    splitCharList sep a = [a] := by
  induction a with
  | nil => rfl
  | cons c cs ih =>
    have hc : ¬ c = sep := fun h => ha (List.mem_cons.mpr (Or.inl h.symm))
    have hcs : sep ∉ cs := fun h => ha (List.mem_cons.mpr (Or.inr h))
    simp [splitCharList, if_neg hc, ih hcs]

theorem splitCharList_append (sep : Char) (a : List Char) (ha : sep ∉ a) (b : List Char) :
    splitCharList sep (a ++ sep :: b) = a :: splitCharList sep b := by
  induction a with
  | nil => simp [splitCharList]
  | cons c cs ih =>
    have hc : ¬ c = sep := fun h => ha (List.mem_cons.mpr (Or.inl h.symm))
    have hcs : sep ∉ cs := fun h => ha (List.mem_cons.mpr (Or.inr h))
    simp [splitCharList, if_neg hc, ih hcs]

theorem data_joinComma_cons (x y : String) (ys : List String) :
    (joinComma (x :: y :: ys)).data = x.data ++ ',' :: (joinComma (y :: ys)).data := by
  simp [joinComma, data_append]

theorem splitCharList_joinComma (x : String) (xs : List String)
    (h : ∀ tk ∈ x :: xs, ',' ∉ tk.data) :
    splitCharList ',' (joinComma (x :: xs)).data = (x :: xs).map String.data := by
  induction xs generalizing x with
  | nil =>
    simp [joinComma, splitCharList_of_not_mem ',' x.data (h x (by simp))]
  | cons y ys ih =>
    have hx : ',' ∉ x.data := h x (by simp)
    have hrest : ∀ tk ∈ y :: ys, ',' ∉ tk.data := fun tk htk => h tk (by simp [htk])
    rw [data_joinComma_cons, splitCharList_append ',' x.data hx, ih y hrest]
    rfl

theorem goSplit_joinComma (x : String) (xs : List String)
    (h : ∀ tk ∈ x :: xs, ',' ∉ tk.data) :
    goSplit (joinComma (x :: xs)) ',' = x :: xs := by
  have hcomp : String.mk ∘ String.data = id := funext fun s => mk_data s
  unfold goSplit
  rw [splitCharList_joinComma x xs h, List.map_map, hcomp, List.map_id]

theorem mem_data_joinComma (toks : List String) (tk : String) (htk : tk ∈ toks)
    (c : Char) (hc : c ∈ tk.data) : c ∈ (joinComma toks).data := by
  induction toks with
  | nil => cases htk
  | cons x xs ih =>
    cases xs with
    | nil =>
      rcases List.mem_cons.mp htk with h | h
      · simpa [joinComma, h] using hc
      · cases h
    | cons y ys =>
      rw [data_joinComma_cons]
      rcases List.mem_cons.mp htk with h | h
      · exact List.mem_append_left _ (h ▸ hc)
      · exact List.mem_append_right _ (List.mem_cons_of_mem _ (ih h))

theorem joinComma_ne_of_slash (toks : List String)
    (h : '/' ∈ (joinComma toks).data) :
    joinComma toks ≠ "" ∧ joinComma toks ≠ "all" := by
  constructor
  · intro he
    rw [he] at h
    cases h
  · intro he
    rw [he] at h
    revert h
    decide

theorem comma_not_mem_registry_token (i : Fin allTargets.length) :
    ',' ∉ (targetToken (allTargets.get i)).data := by
  revert i
  decide

theorem slash_mem_registry_token (i : Fin allTargets.length) :
    '/' ∈ (targetToken (allTargets.get i)).data := by
  revert i
  decide

instance : DecidableEq (Except String Target) := fun a b =>
  match a, b with
  | Except.ok x, Except.ok y =>
    if h : x = y then isTrue (by rw [h]) else isFalse (by intro hc; cases hc; exact h rfl)
  | Except.error x, Except.error y =>
    if h : x = y then isTrue (by rw [h]) else isFalse (by intro hc; cases hc; exact h rfl)
  | Except.ok _, Except.error _ => isFalse (by intro hc; cases hc)
  | Except.error _, Except.ok _ => isFalse (by intro hc; cases hc)

theorem parsePart_registry_token (i : Fin allTargets.length) :
    parsePart (targetToken (allTargets.get i)) = Except.ok (allTargets.get i) := by
  revert i
  decide

theorem parsePartsLoop_cons (p : String) (ps : List String) :
    parsePartsLoop (p :: ps) =
      match parsePart p with
      | Except.ok t => (parsePartsLoop ps).map (fun ts => t :: ts)
      | Except.error e => Except.error e := rfl

theorem parsePartsLoop_registry (l : List (Fin allTargets.length)) :
    parsePartsLoop (l.map fun i => targetToken (allTargets.get i)) =
      Except.ok (l.map fun i => allTargets.get i) := by
  induction l with
  | nil => rfl
  | cons i l ih =>
    rw [List.map_cons, parsePartsLoop_cons, parsePart_registry_token i, ih]
    rfl

theorem parsePartsLoop_error_append (pre : List (Fin allTargets.length))
    (rest : List String) (e : String) (h : parsePartsLoop rest = Except.error e) :
    parsePartsLoop (pre.map (fun i => targetToken (allTargets.get i)) ++ rest) =
      Except.error e := by
  induction pre with
  | nil => simpa using h
  | cons i pre ih =>
    rw [List.map_cons, List.cons_append, parsePartsLoop_cons, parsePart_registry_token i, ih]
    rfl

theorem goSplit_joinComma_ne (toks : List String) (hne : toks ≠ [])
    (h : ∀ tk ∈ toks, ',' ∉ tk.data) :
    goSplit (joinComma toks) ',' = toks := by
  cases toks with
  | nil => exact absurd rfl hne
  | cons x xs => exact goSplit_joinComma x xs h

theorem data_slash_token (bg ba : String) :
    (bg ++ "/" ++ ba).data = bg.data ++ '/' :: ba.data := by
  rw [data_append, data_append, List.append_assoc]
  rfl

theorem parsePart_bad (bg ba : String) (hbgs : '/' ∉ bg.data) (hbas : '/' ∉ ba.data)
    (htrim : goTrimSpace (bg ++ "/" ++ ba) = bg ++ "/" ++ ba)
    (hfind : allTargets.find? (fun t => t.GOOS == bg && t.ARCH == ba) = none) :
    parsePart (bg ++ "/" ++ ba) =
      Except.error ("unsupported target: " ++ bg ++ "/" ++ ba) := by
  have hsplit : goSplit (bg ++ "/" ++ ba) '/' = [bg, ba] := by
    unfold goSplit
    rw [data_slash_token bg ba, splitCharList_append '/' bg.data hbgs,
      splitCharList_of_not_mem '/' ba.data hbas]
    simp [mk_data]
  simp only [parsePart]
  rw [htrim, hsplit]
  simp only [hfind]

/-- Claim C5: a selector that is a comma-separated list of registered
`os/arch` tokens resolves to exactly the corresponding registry entries,
in input order, with duplicate tokens yielding duplicate targets. -/
theorem parseTargets_registered_tokens (host : Host) (l : List (Fin allTargets.length))
    (hl : l ≠ []) :
    parseTargets host (joinComma (l.map fun i => targetToken (allTargets.get i))) =
      Except.ok (l.map fun i => allTargets.get i) := by
  have hcm : ∀ tk ∈ l.map fun i => targetToken (allTargets.get i), ',' ∉ tk.data := by
    intro tk htk
    obtain ⟨j, _, rfl⟩ := List.mem_map.mp htk
    exact comma_not_mem_registry_token j
  have hlne : l.map (fun i => targetToken (allTargets.get i)) ≠ [] := by
    simpa using hl
  have hslash : '/' ∈ (joinComma (l.map fun i => targetToken (allTargets.get i))).data := by
    cases l with
    | nil => exact absurd rfl hl
    | cons i l' =>
      exact mem_data_joinComma _ (targetToken (allTargets.get i))
        (List.mem_map.mpr ⟨i, List.mem_cons_self i l', rfl⟩) '/'
        (slash_mem_registry_token i)
  have hne := joinComma_ne_of_slash _ hslash
  unfold parseTargets
  rw [if_neg hne.1, if_neg hne.2, goSplit_joinComma_ne _ hlne hcm]
  exact parsePartsLoop_registry l

/-- Witness for C5: the selector `darwin/amd64,linux/amd64,darwin/amd64`
resolves to those three registry entries in order, the duplicate
preserved. -/
theorem parseTargets_registered_tokens_witness :
    parseTargets ⟨"linux", "amd64"⟩
      (joinComma ((([⟨2, by decide⟩, ⟨0, by decide⟩, ⟨2, by decide⟩] :
          List (Fin allTargets.length))).map fun i => targetToken (allTargets.get i))) =
      Except.ok ((([⟨2, by decide⟩, ⟨0, by decide⟩, ⟨2, by decide⟩] :
          List (Fin allTargets.length))).map fun i => allTargets.get i) :=
  parseTargets_registered_tokens ⟨"linux", "amd64"⟩ _ (by decide)

/-- Claim C6: a selector containing a well-formed but unregistered
`os/arch` token fails, at any position of the token, with an error
naming that token, and no partial target list is returned. -/
theorem parseTargets_unregistered_token (host : Host)
    (pre post : List (Fin allTargets.length)) (bg ba : String)
    (hbgc : ',' ∉ bg.data) (hbac : ',' ∉ ba.data)
    (hbgs : '/' ∉ bg.data) (hbas : '/' ∉ ba.data)
    (htrim : goTrimSpace (bg ++ "/" ++ ba) = bg ++ "/" ++ ba)
    (hfind : allTargets.find? (fun t => t.GOOS == bg && t.ARCH == ba) = none) :
    parseTargets host
      (joinComma (pre.map (fun i => targetToken (allTargets.get i)) ++
        (bg ++ "/" ++ ba) :: post.map (fun i => targetToken (allTargets.get i)))) =
      Except.error ("unsupported target: " ++ bg ++ "/" ++ ba) := by
  have hbadslash : '/' ∈ (bg ++ "/" ++ ba).data := by
    rw [data_slash_token]
    exact List.mem_append_right _ (List.mem_cons_self _ _)
  have hmem : (bg ++ "/" ++ ba) ∈
      pre.map (fun i => targetToken (allTargets.get i)) ++
        (bg ++ "/" ++ ba) :: post.map (fun i => targetToken (allTargets.get i)) :=
    List.mem_append_right _ (List.mem_cons_self _ _)
  have hslash := mem_data_joinComma _ _ hmem '/' hbadslash
  have hne := joinComma_ne_of_slash _ hslash
  have hcm : ∀ tk ∈ pre.map (fun i => targetToken (allTargets.get i)) ++
      (bg ++ "/" ++ ba) :: post.map (fun i => targetToken (allTargets.get i)),
      ',' ∉ tk.data := by
    intro tk htk
    rcases List.mem_append.mp htk with h | h
    · obtain ⟨j, _, rfl⟩ := List.mem_map.mp h
      exact comma_not_mem_registry_token j
    · rcases List.mem_cons.mp h with h | h
      · rw [h, data_slash_token]
        intro hc
        rcases List.mem_append.mp hc with h1 | h1
        · exact hbgc h1
        · rcases List.mem_cons.mp h1 with h2 | h2
          · exact absurd h2 (by decide)
          · exact hbac h2
      · obtain ⟨j, _, rfl⟩ := List.mem_map.mp h
        exact comma_not_mem_registry_token j
  unfold parseTargets
  rw [if_neg hne.1, if_neg hne.2, goSplit_joinComma_ne _ (by simp) hcm]
  apply parsePartsLoop_error_append
  rw [parsePartsLoop_cons, parsePart_bad bg ba hbgs hbas htrim hfind]

/-- Witness for C6: the selector `linux/amd64,linux/mips,linux/arm64`
fails with an error naming the middle token `linux/mips`. -/
theorem parseTargets_unregistered_token_witness :
    parseTargets ⟨"linux", "amd64"⟩
      (joinComma (([⟨0, by decide⟩] : List (Fin allTargets.length)).map
          (fun i => targetToken (allTargets.get i)) ++
        ("linux" ++ "/" ++ "mips") ::
          ([⟨1, by decide⟩] : List (Fin allTargets.length)).map
            (fun i => targetToken (allTargets.get i)))) =
      Except.error ("unsupported target: " ++ "linux" ++ "/" ++ "mips") :=
  parseTargets_unregistered_token ⟨"linux", "amd64"⟩ _ _ "linux" "mips"
    (by decide) (by decide) (by decide) (by decide) (by decide) (by decide)

/-- Claim C7: the literal selector `all` resolves, for every host, to the
full registry of 11 targets in declaration order. -/
theorem parseTargets_all (host : Host) :
    parseTargets host "all" = Except.ok allTargets ∧ allTargets.length = 11 :=
  ⟨rfl, rfl⟩

/-- Claim C8: the empty selector resolves to a singleton containing a
registry entry matching the host's (GOOS, GOARCH) exactly when that pair
is registered, and otherwise fails with the unsupported-host error. -/
theorem parseTargets_empty_selector (host : Host) :
    ((∃ t ∈ allTargets, t.GOOS = host.goos ∧ t.ARCH = host.goarch) →
      ∃ t ∈ allTargets, t.GOOS = host.goos ∧ t.ARCH = host.goarch ∧
        parseTargets host "" = Except.ok [t]) ∧
    ((¬ ∃ t ∈ allTargets, t.GOOS = host.goos ∧ t.ARCH = host.goarch) →
      parseTargets host "" =
        Except.error ("unsupported host platform: " ++ host.goos ++ "/" ++ host.goarch)) := by
  constructor
  · rintro ⟨t, ht, hg, ha⟩
    cases hfind : allTargets.find? (fun t => t.GOOS == host.goos && t.ARCH == host.goarch) with
    | none =>
      have := List.find?_eq_none.mp hfind t ht
      simp [hg, ha] at this
    | some t1 =>
      have hp := List.find?_some hfind
      simp only [Bool.and_eq_true, beq_iff_eq] at hp
      exact ⟨t1, List.mem_of_find?_eq_some hfind, hp.1, hp.2, by simp [parseTargets, hfind]⟩
  · intro hnone
    have hfind : allTargets.find?
        (fun t => t.GOOS == host.goos && t.ARCH == host.goarch) = none := by
      rw [List.find?_eq_none]
      intro x hx hpx
      simp only [Bool.and_eq_true, beq_iff_eq] at hpx
      exact hnone ⟨x, hx, hpx.1, hpx.2⟩
    simp [parseTargets, hfind]

/-- Witness for C8: the host linux/amd64 is registered and resolves to a
singleton; the host plan9/mips is not registered and fails. -/
theorem parseTargets_empty_selector_witness :
    (∃ t ∈ allTargets, t.GOOS = "linux" ∧ t.ARCH = "amd64" ∧
      parseTargets ⟨"linux", "amd64"⟩ "" = Except.ok [t]) ∧
    parseTargets ⟨"plan9", "mips"⟩ "" =
      Except.error ("unsupported host platform: " ++ "plan9" ++ "/" ++ "mips") :=
  ⟨(parseTargets_empty_selector ⟨"linux", "amd64"⟩).1
      ⟨{ OS := "linux", CPU := "x64", GOOS := "linux", ARCH := "amd64" }, by decide, rfl, rfl⟩,
    (parseTargets_empty_selector ⟨"plan9", "mips"⟩).2 (by decide)⟩

/-- Claim C2: an integrity-checked transfer whose payload digest equals
the expected hash succeeds and leaves exactly the payload bytes at the
destination; a digest mismatch fails with an error and leaves no file at
the destination path. -/
theorem downloadFile_integrity (h : List Nat → String) (body : List Nat) (fs : FS)
    (dest expected : String) :
    (h body = expected →
      (downloadFile h 200 body fs dest expected).1 = Except.ok () ∧
      (downloadFile h 200 body fs dest expected).2 dest = some body) ∧
    (h body ≠ expected →
      (∃ e, (downloadFile h 200 body fs dest expected).1 = Except.error e) ∧
      (downloadFile h 200 body fs dest expected).2 dest = none) := by
  constructor
  · intro heq
    simp [downloadFile, heq]
  · intro hne
    simp [downloadFile, hne]

/-- Witness for C2: a transfer checked against the true digest succeeds
with the payload on disk; one checked against a wrong digest fails with
no file on disk. -/
theorem downloadFile_integrity_witness :
    ((downloadFile (fun _ => "aa") 200 [1, 2] (fun _ => none) "f" "aa").1 = Except.ok () ∧
      (downloadFile (fun _ => "aa") 200 [1, 2] (fun _ => none) "f" "aa").2 "f" = some [1, 2]) ∧
    ((∃ e, (downloadFile (fun _ => "aa") 200 [1, 2] (fun _ => none) "f" "bb").1 =
        Except.error e) ∧
      (downloadFile (fun _ => "aa") 200 [1, 2] (fun _ => none) "f" "bb").2 "f" = none) :=
  ⟨(downloadFile_integrity (fun _ => "aa") [1, 2] (fun _ => none) "f" "aa").1 rfl,
    (downloadFile_integrity (fun _ => "aa") [1, 2] (fun _ => none) "f" "bb").2 (by decide)⟩

/-- Claim C3: the synthesized configuration for linux/x64 contains
`use_cfi_icall=false` and the one for linux/arm64 does not, in both
snapshots of `buildTarget`. -/
theorem use_cfi_icall_x64_only :
    "use_cfi_icall=false" ∈
        buildTargetArgs { OS := "linux", CPU := "x64", GOOS := "linux", ARCH := "amd64" } ∧
    "use_cfi_icall=false" ∉
        buildTargetArgs { OS := "linux", CPU := "arm64", GOOS := "linux", ARCH := "arm64" } ∧
    "use_cfi_icall=false" ∈
        buildTargetArgsV1 { OS := "linux", CPU := "x64", GOOS := "linux", ARCH := "amd64" } ∧
    "use_cfi_icall=false" ∉
        buildTargetArgsV1 { OS := "linux", CPU := "arm64", GOOS := "linux", ARCH := "arm64" } := by
  decide

/-- Claim C4: for every registered target the synthesized configuration
extends the common baseline: the OS branch only appends, so every
baseline directive is present in the final argument list. -/
theorem baseline_preserved_in_buildTargetArgs (t : Target) (_ht : t ∈ allTargets) :
    (∃ extra, buildTargetArgs t = baselineArgs t ++ extra) ∧
    ∀ a ∈ baselineArgs t, a ∈ buildTargetArgs t :=
  ⟨⟨osSpecificArgs t, rfl⟩, fun _ ha => List.mem_append_left _ ha⟩

/-- Witness for C4: instantiated at the registered target linux/x64. -/
theorem baseline_preserved_in_buildTargetArgs_witness :
    (∃ extra, buildTargetArgs { OS := "linux", CPU := "x64", GOOS := "linux", ARCH := "amd64" } =
      baselineArgs { OS := "linux", CPU := "x64", GOOS := "linux", ARCH := "amd64" } ++ extra) ∧
    ∀ a ∈ baselineArgs { OS := "linux", CPU := "x64", GOOS := "linux", ARCH := "amd64" },
      a ∈ buildTargetArgs { OS := "linux", CPU := "x64", GOOS := "linux", ARCH := "amd64" } :=
  baseline_preserved_in_buildTargetArgs _ (by decide)

theorem warnsOf_cons (e : PkgEffect) (es : List PkgEffect) :
    warnsOf (e :: es) =
      (match e with | PkgEffect.warnMissing g a => [(g, a)] | _ => []) ++ warnsOf es := by
  cases e <;> rfl

theorem copiesOf_cons (e : PkgEffect) (es : List PkgEffect) :
    copiesOf (e :: es) =
      (match e with | PkgEffect.copyLib g a => [(g, a)] | _ => []) ++ copiesOf es := by
  cases e <;> rfl

theorem cgosOf_cons (e : PkgEffect) (es : List PkgEffect) :
    cgosOf (e :: es) =
      (match e with | PkgEffect.writeCGO f => [f] | _ => []) ++ cgosOf es := by
  cases e <;> rfl

theorem warnsOf_append (a b : List PkgEffect) :
    warnsOf (a ++ b) = warnsOf a ++ warnsOf b := by
  simp [warnsOf, List.filterMap_append]

theorem copiesOf_append (a b : List PkgEffect) :
    copiesOf (a ++ b) = copiesOf a ++ copiesOf b := by
  simp [copiesOf, List.filterMap_append]

theorem cgosOf_append (a b : List PkgEffect) :
    cgosOf (a ++ b) = cgosOf a ++ cgosOf b := by
  simp [cgosOf, List.filterMap_append]

theorem warnsOf_packageLibEffects (present : Target → Bool) (ts : List Target) :
    warnsOf (packageLibEffects present ts) =
      (ts.filter fun t => !present t).map fun t => (t.GOOS, t.ARCH) := by
  induction ts with
  | nil => rfl
  | cons t ts ih =>
    by_cases hp : present t
    · rw [show packageLibEffects present (t :: ts) =
          PkgEffect.makeDir ("lib/" ++ libDirName t) :: PkgEffect.copyLib t.GOOS t.ARCH ::
            packageLibEffects present ts from by simp [packageLibEffects, hp]]
      rw [warnsOf_cons, warnsOf_cons, ih, List.filter_cons]
      simp [hp]
    · rw [show packageLibEffects present (t :: ts) =
          PkgEffect.makeDir ("lib/" ++ libDirName t) :: PkgEffect.warnMissing t.GOOS t.ARCH ::
            packageLibEffects present ts from by simp [packageLibEffects, hp]]
      rw [warnsOf_cons, warnsOf_cons, ih, List.filter_cons]
      simp [hp]

theorem copiesOf_packageLibEffects (present : Target → Bool) (ts : List Target) :
    copiesOf (packageLibEffects present ts) =
      (ts.filter fun t => present t).map fun t => (t.GOOS, t.ARCH) := by
  induction ts with
  | nil => rfl
  | cons t ts ih =>
    by_cases hp : present t
    · rw [show packageLibEffects present (t :: ts) =
          PkgEffect.makeDir ("lib/" ++ libDirName t) :: PkgEffect.copyLib t.GOOS t.ARCH ::
            packageLibEffects present ts from by simp [packageLibEffects, hp]]
      rw [copiesOf_cons, copiesOf_cons, ih, List.filter_cons]
      simp [hp]
    · rw [show packageLibEffects present (t :: ts) =
          PkgEffect.makeDir ("lib/" ++ libDirName t) :: PkgEffect.warnMissing t.GOOS t.ARCH ::
            packageLibEffects present ts from by simp [packageLibEffects, hp]]
      rw [copiesOf_cons, copiesOf_cons, ih, List.filter_cons]
      simp [hp]

theorem cgosOf_packageLibEffects (present : Target → Bool) (ts : List Target) :
    cgosOf (packageLibEffects present ts) = [] := by
  induction ts with
  | nil => rfl
  | cons t ts ih =>
    by_cases hp : present t
    · rw [show packageLibEffects present (t :: ts) =
          PkgEffect.makeDir ("lib/" ++ libDirName t) :: PkgEffect.copyLib t.GOOS t.ARCH ::
            packageLibEffects present ts from by simp [packageLibEffects, hp]]
      rw [cgosOf_cons, cgosOf_cons, ih]
      rfl
    · rw [show packageLibEffects present (t :: ts) =
          PkgEffect.makeDir ("lib/" ++ libDirName t) :: PkgEffect.warnMissing t.GOOS t.ARCH ::
            packageLibEffects present ts from by simp [packageLibEffects, hp]]
      rw [cgosOf_cons, cgosOf_cons, ih]
      rfl

theorem warnsOf_generateCGOConfigs (ts : List Target) :
    warnsOf (generateCGOConfigs ts) = [] := by
  induction ts with
  | nil => rfl
  | cons t ts ih =>
    rw [show generateCGOConfigs (t :: ts) =
        PkgEffect.writeCGO (cgoFileName t) :: generateCGOConfigs ts from rfl]
    rw [warnsOf_cons, ih]
    rfl

theorem copiesOf_generateCGOConfigs (ts : List Target) :
    copiesOf (generateCGOConfigs ts) = [] := by
  induction ts with
  | nil => rfl
  | cons t ts ih =>
    rw [show generateCGOConfigs (t :: ts) =
        PkgEffect.writeCGO (cgoFileName t) :: generateCGOConfigs ts from rfl]
    rw [copiesOf_cons, ih]
    rfl

theorem cgosOf_generateCGOConfigs (ts : List Target) :
    cgosOf (generateCGOConfigs ts) = ts.map cgoFileName := by
  induction ts with
  | nil => rfl
  | cons t ts ih =>
    rw [show generateCGOConfigs (t :: ts) =
        PkgEffect.writeCGO (cgoFileName t) :: generateCGOConfigs ts from rfl]
    rw [cgosOf_cons, ih, List.map_cons]
    rfl

/-- Claim C9: packaging is best-effort per target: every target whose
library is absent gets a warning (and no copy) while the others are
still copied, the run never aborts, and exactly one CGO config file is
written per target in the list, including the skipped ones. -/
theorem cmdPackage_best_effort (present : Target → Bool) (targets : List Target) :
    warnsOf (cmdPackage present targets) =
      (targets.filter fun t => !present t).map (fun t => (t.GOOS, t.ARCH)) ∧
    copiesOf (cmdPackage present targets) =
      (targets.filter fun t => present t).map (fun t => (t.GOOS, t.ARCH)) ∧
    cgosOf (cmdPackage present targets) = targets.map cgoFileName := by
  unfold cmdPackage
  refine ⟨?_, ?_, ?_⟩
  · rw [warnsOf_append, warnsOf_append, warnsOf_packageLibEffects,
      warnsOf_generateCGOConfigs]
    simp [warnsOf]
  · rw [copiesOf_append, copiesOf_append, copiesOf_packageLibEffects,
      copiesOf_generateCGOConfigs]
    simp [copiesOf]
  · rw [cgosOf_append, cgosOf_append, cgosOf_packageLibEffects,
      cgosOf_generateCGOConfigs]
    simp [cgosOf]

/-- Claim C10: the (GOOS, ARCH) pair of every registry entry is unique,
so the per-target packaged library directory names and CGO config
filenames are pairwise distinct as well. -/
theorem registry_goos_arch_unique (i j : Fin allTargets.length) (hij : i ≠ j) :
    ((allTargets.get i).GOOS, (allTargets.get i).ARCH) ≠
      ((allTargets.get j).GOOS, (allTargets.get j).ARCH) ∧
    libDirName (allTargets.get i) ≠ libDirName (allTargets.get j) ∧
    cgoFileName (allTargets.get i) ≠ cgoFileName (allTargets.get j) := by
  have key : ∀ a b : Fin allTargets.length, a ≠ b →
      ((allTargets.get a).GOOS, (allTargets.get a).ARCH) ≠
        ((allTargets.get b).GOOS, (allTargets.get b).ARCH) ∧
      libDirName (allTargets.get a) ≠ libDirName (allTargets.get b) ∧
      cgoFileName (allTargets.get a) ≠ cgoFileName (allTargets.get b) := by decide
  exact key i j hij

/-- Witness for C10: the first two registry entries differ in all three
namespaces. -/
theorem registry_goos_arch_unique_witness :
    ((allTargets.get ⟨0, by decide⟩).GOOS, (allTargets.get ⟨0, by decide⟩).ARCH) ≠
      ((allTargets.get ⟨1, by decide⟩).GOOS, (allTargets.get ⟨1, by decide⟩).ARCH) ∧
    libDirName (allTargets.get ⟨0, by decide⟩) ≠ libDirName (allTargets.get ⟨1, by decide⟩) ∧
    cgoFileName (allTargets.get ⟨0, by decide⟩) ≠ cgoFileName (allTargets.get ⟨1, by decide⟩) :=
  registry_goos_arch_unique ⟨0, by decide⟩ ⟨1, by decide⟩ (by decide)

/-- Counterexample for C1: on a linux/arm64 host cross-building the
registered linux/x64 target, `runGetClang` never creates the symlink the
claim describes — from the host's own (arm64) staging directory to the
arm64 location the generator expects — because both symlink paths are
hard-coded to amd64; the fixed amd64 symlink is created instead. -/
theorem runGetClang_host_staging_counterexample :
    (ClangEffect.symlink (hostStagingDirSpec "/src" (hostToCPU "arm64"))
        (conventionalSysrootSpec "/src" (hostToCPU "arm64"))) ∉
      runGetClang "/src" "linux" "arm64" false
        { OS := "linux", CPU := "x64", GOOS := "linux", ARCH := "amd64" } ∧
    (ClangEffect.symlink ("/src" ++ "/out/sysroot-build/bullseye/bullseye_amd64_staging")
        ("/src" ++ "/build/linux/debian_bullseye_amd64-sysroot")) ∈
      runGetClang "/src" "linux" "arm64" false
        { OS := "linux", CPU := "x64", GOOS := "linux", ARCH := "amd64" } := by
  decide

/-- Claim C1 (amended): on a linux host, for a linux or android target
whose CPU differs from the host CPU, `runGetClang` first runs the
toolchain-fetch script for the host's own platform/CPU, then — only if
the fixed amd64 conventional sysroot location does not already exist —
symlinks the fixed amd64 staging directory to it (these paths equal the
host's own staging directory and expected location only when the host
CPU is x64), and only then runs the script for the requested target. -/
theorem runGetClang_cross_bootstrap (srcRoot hostGOARCH : String) (dstExists : Bool)
    (t : Target) (hOS : t.OS = "linux" ∨ t.OS = "android")
    (hCPU : t.CPU ≠ hostToCPU hostGOARCH) :
    runGetClang srcRoot "linux" hostGOARCH dstExists t =
      ClangEffect.runScript (hostSysrootFlags (hostToCPU hostGOARCH)) ::
      ((if dstExists then []
        else
          [ClangEffect.symlink
            (srcRoot ++ "/out/sysroot-build/bullseye/bullseye_amd64_staging")
            (srcRoot ++ "/build/linux/debian_bullseye_amd64-sysroot")]) ++
       [ClangEffect.runScript (getExtraFlags t)]) := by
  simp only [runGetClang]
  rw [if_pos ⟨trivial, hOS, hCPU⟩]
  rw [List.cons_append]

/-- Witness for C1 (amended): instantiated on a linux/arm64 host building
the registered linux/x64 target with the conventional location absent. -/
theorem runGetClang_cross_bootstrap_witness :
    runGetClang "/src" "linux" "arm64" false
        { OS := "linux", CPU := "x64", GOOS := "linux", ARCH := "amd64" } =
      ClangEffect.runScript (hostSysrootFlags (hostToCPU "arm64")) ::
      ([ClangEffect.symlink
          ("/src" ++ "/out/sysroot-build/bullseye/bullseye_amd64_staging")
          ("/src" ++ "/build/linux/debian_bullseye_amd64-sysroot")] ++
       [ClangEffect.runScript
          (getExtraFlags { OS := "linux", CPU := "x64", GOOS := "linux", ARCH := "amd64" })]) := by
  have h := runGetClang_cross_bootstrap "/src" "arm64" false
    { OS := "linux", CPU := "x64", GOOS := "linux", ARCH := "amd64" }
    (Or.inl rfl) (by decide)
  simpa using h

end CronetBuild

